import Mathlib

/-!
# Verification of the IZA OS AI agent orchestrator core

A shallow embedding of `src/migrated_functionality/src/04-ai_agent_orchestrator.py`
(class `AIAgentOrchestrator`): the agent registry, the task queue and scheduler,
the plan catalog and the impact estimators, together with proofs about the
orchestration state machine.

Modelling conventions:
* Python dicts keyed by agent name are insertion-ordered association lists
  (`List (String × Agent)`); insert-or-replace and in-place value mutation are
  `dictInsert` / `dictUpdate`.
* `datetime.now()` is an explicit clock argument `now : Nat` (the reading of the
  wall clock at second resolution, the resolution of the `%Y%m%d_%H%M%S` format
  used for task identifiers); `strftime_YmdHMS` renders that reading as its
  decimal string.  Clock monotonicity is a hypothesis on traces (`Reachable`).
* Python's `{"error": ...}` return dicts of `execute_task` are the explicit
  error branch of `Except ExecError ExecResults`; all other returns are `.ok`.
* Python truthiness of `if not agent_name` holds for `None` and for the empty
  string; both cases are modelled.
-/

namespace AIAgentOrchestrator

/-- `RealityLayer` enum (source lines 18-25). -/
inductive RealityLayer where
  | PHYSICAL | EMOTIONAL | MENTAL | ASTRAL | ETHERIC | CELESTIAL | DIVINE
  deriving DecidableEq, Repr

/-- The `.value` of each `RealityLayer` member, as the Python enum assigns it. -/
def RealityLayer.val : RealityLayer → Nat
  | .PHYSICAL => 1
  | .EMOTIONAL => 2
  | .MENTAL => 3
  | .ASTRAL => 4
  | .ETHERIC => 5
  | .CELESTIAL => 6
  | .DIVINE => 7

/-- `PowerMachine` enum (source lines 27-41). -/
inductive PowerMachine where
  | MONEY | DATA | NARRATIVE | NETWORK | LEGAL | TECHNOLOGY | BIOLOGICAL
  | TEMPORAL | SPATIAL | ENERGY | ATTENTION | INFLUENCE | LEGACY | CONSCIOUSNESS
  deriving DecidableEq, Repr

/-- `AgentExecutionContext` dataclass (source lines 43-52). -/
structure AgentExecutionContext where
  target_volume : String
  target_section : String
  current_business_focus : String
  current_reality_layer : RealityLayer
  temporal_constraints : String
  energy_resources : String
  priority : String := "Medium"
  deriving DecidableEq, Repr

/-- `AgentExecutionOutput` dataclass (source lines 54-61).  The
`success_metrics : Dict[str, Any]` dict holds string values everywhere in the
source, so it is an association list of strings. -/
structure AgentExecutionOutput where
  technical_specifications : String
  implementation_steps : List String
  success_metrics : List (String × String)
  cross_dimensional_impact : String
  completion_status : String := "Pending"
  deriving DecidableEq, Repr

/-- An entry of `self.agents` (the dict literal built by `register_agent`,
source lines 98-104). -/
structure Agent where
  capabilities : List String
  reality_layers : List RealityLayer
  power_machines : List PowerMachine
  status : String
  current_task : Option String
  deriving DecidableEq, Repr

/-- A plan dict as produced by the `_generate_*_plan` methods: keys `focus`,
`implementation`, `memu_integration`, `success_metrics`. -/
structure ExecutionPlan where
  focus : String
  implementation : List String
  memu_integration : String
  success_metrics : List (String × String)
  deriving DecidableEq, Repr

/-- The results dict assembled by `_execute_plan` (source lines 413-427). -/
structure ExecResults where
  plan_focus : String
  implementation_steps : List String
  memu_integration : String
  success_metrics : List (String × String)
  execution_status : String
  cross_dimensional_impact : String
  business_value : String
  temporal_optimization : String
  energy_efficiency : String
  deriving DecidableEq, Repr

/-- A task dict as built by `create_execution_task` (source lines 111-119).
The `results` and `completed_at` keys do not exist until `execute_task` sets
them, hence `Option`. -/
structure Task where
  id : String
  context : AgentExecutionContext
  expected_outputs : AgentExecutionOutput
  status : String
  created_at : Nat
  assigned_agent : Option String
  progress : Nat
  results : Option ExecResults
  completed_at : Option Nat
  deriving DecidableEq, Repr

/-- The mutable state of an `AIAgentOrchestrator` (source `__init__`,
lines 66-70): the agent registry dict and the execution queue.  `self.results`
is initialised `{}` and never read or written again, so it is omitted;
`self.memu_integration` is loaded once from the constant table
`_load_memu_integration` and never mutated, so it is the file-level constant
`memu_integration` below. -/
structure Orchestrator where
  agents : List (String × Agent)
  execution_queue : List Task
  deriving DecidableEq, Repr

/-- The error dicts `execute_task` can return: `{"error": "Task not found"}`
and `{"error": "No agent assigned"}` (source lines 147, 151). -/
inductive ExecError where
  | taskNotFound
  | noAgentAssigned
  deriving DecidableEq, Repr

/-! ## Dictionary and list helpers (Python dict / in-place list mutation) -/

/-- `d[k]` lookup on the agents dict. -/
def dictGet (k : String) (d : List (String × Agent)) : Option Agent :=
  (d.find? (fun p => p.1 == k)).map Prod.snd

/-- `k in d` on the agents dict. -/
def dictContains (k : String) (d : List (String × Agent)) : Bool :=
  d.any (fun p => p.1 == k)

/-- `d[k] = v`: replace in place when the key exists, else append (Python
dicts keep insertion order and keep a re-assigned key's position). -/
def dictInsert (k : String) (v : Agent) (d : List (String × Agent)) :
    List (String × Agent) :=
  if dictContains k d then d.map (fun p => if p.1 == k then (k, v) else p)
  else d ++ [(k, v)]

/-- In-place mutation of the value stored under `k` (e.g.
`self.agents[agent_name]["status"] = "Busy"`).  Keys are unique in every
state the orchestrator builds, so mapping over all occurrences coincides
with Python's single-slot mutation. -/
def dictUpdate (k : String) (f : Agent → Agent) (d : List (String × Agent)) :
    List (String × Agent) :=
  d.map (fun p => if p.1 == k then (p.1, f p.2) else p)

/-- In-place mutation of the first task with the given id: the source first
finds the task with `next((t for t in self.execution_queue if t["id"] == task_id), None)`
and then mutates that object, so only the first match changes. -/
def updateFirstTask (q : List Task) (tid : String) (f : Task → Task) : List Task :=
  match q with
  | [] => []
  | t :: ts => if t.id == tid then f t :: ts else t :: updateFirstTask ts tid f

/-- Python `.lower()` (the source applies it to ASCII strings only). -/
def pyLower (s : String) : String := ⟨s.data.map Char.toLower⟩

/-- Python `needle in hay` substring test. -/
def strContains (hay needle : String) : Bool :=
  decide (List.IsInfix needle.data hay.data)

/-! ## The MEMU integration table -/

/-- `_load_memu_integration` (source lines 72-92). -/
def memu_integration : List (String × String) :=
  [("enterprise_platform", "$200B"),
   ("billionaire_consciousness", "$350B"),
   ("worldwidebro_integration", "$80B"),
   ("genix_bank_financial", "$40B"),
   ("ai_agent_ecosystem", "$20B"),
   ("mcp_integration_hub", "$15B"),
   ("autonomous_systems", "$50B"),
   ("security_system", "$20B"),
   ("devops_system", "$15B"),
   ("integration_system", "$30B"),
   ("frontend_system", "$20B"),
   ("backend_services", "$25B"),
   ("api_management", "$18B"),
   ("database_systems", "$12B"),
   ("business_intelligence", "$25B"),
   ("monitoring_system", "$8B"),
   ("reporting_system", "$7B")]

/-- `float(v.replace("$", "").replace("B", ""))` for the table's `"$<n>B"`
entries; every entry is integer-valued, so the float is a `Nat`: strip the
leading `$` and trailing `B` and read the decimal digits. -/
def parse_billions (v : String) : Nat :=
  (v.data.drop 1).dropLast.foldl (fun n c => n * 10 + (c.toNat - 48)) 0

/-! ## Agent registry and task queue operations -/

/-- `register_agent` (source lines 94-104): insert-or-replace with state
`"Available"` and no current task. -/
def register_agent (s : Orchestrator) (agent_name : String)
    (capabilities : List String) (reality_layers : List RealityLayer)
    (power_machines : List PowerMachine) : Orchestrator :=
  let agent : Agent :=
    { capabilities := capabilities,
      reality_layers := reality_layers,
      power_machines := power_machines,
      status := "Available",
      current_task := none }
  { s with agents := dictInsert agent_name agent s.agents }

/-- The task identifier `f"task_{datetime.now().strftime('%Y%m%d_%H%M%S')}"`:
the second-resolution clock reading `now` rendered as a decimal string.  Two
calls within the same second read the same `now` and produce the same string. -/
def strftime_YmdHMS (now : Nat) : String := Nat.repr now

/-- `create_execution_task` (source lines 106-122): build a `"Queued"` task,
append it to the queue, return its identifier. -/
def create_execution_task (s : Orchestrator) (now : Nat)
    (context : AgentExecutionContext) (expected_outputs : AgentExecutionOutput) :
    String × Orchestrator :=
  let task_id := "task_" ++ strftime_YmdHMS now
  let task : Task :=
    { id := task_id
      context := context
      expected_outputs := expected_outputs
      status := "Queued"
      created_at := now
      assigned_agent := none
      progress := 0
      results := none
      completed_at := none }
  (task_id, { s with execution_queue := s.execution_queue ++ [task] })

/-- `assign_agent_to_task` (source lines 124-141).  Checks, in source order:
agent registered, task present, agent `"Available"`; on success marks the task
`"In Progress"` with the agent assigned and the agent `"Busy"` pointing at the
task.  The task's own status is never checked. -/
def assign_agent_to_task (s : Orchestrator) (task_id agent_name : String) :
    Bool × Orchestrator :=
  match dictGet agent_name s.agents with
  | none => (false, s)
  | some agent =>
    match s.execution_queue.find? (fun t => t.id == task_id) with
    | none => (false, s)
    | some _ =>
      if agent.status == "Available" then
        (true,
          { s with
            execution_queue := updateFirstTask s.execution_queue task_id
              (fun t => { t with assigned_agent := some agent_name,
                                 status := "In Progress" })
            agents := dictUpdate agent_name
              (fun a => { a with status := "Busy", current_task := some task_id })
              s.agents })
      else (false, s)

/-! ## Plan catalog -/

/-- `_generate_foundational_plan` (source lines 198-248): the `Volume_1` table
with sections `"1.0"`, `"2.0"`, `"3.0"`, defaulting to the generic plan. -/
def generate_generic_plan (sect : String) : ExecutionPlan :=
  { focus := "Generic Implementation for " ++ sect
    implementation :=
      ["Analyze requirements", "Design implementation",
       "Execute implementation", "Validate results"]
    memu_integration := "All systems"
    success_metrics :=
      [("completion_rate", "100%"), ("quality_score", ">90%"),
       ("integration_score", ">85%")] }

def generate_foundational_plan (sect : String) : ExecutionPlan :=
  if sect == "1.0" then
    { focus := "7-Layer Reality Architecture"
      implementation :=
        ["Map business to reality layers", "Implement layer-specific systems",
         "Create cross-layer integration", "Validate layer functionality"]
      memu_integration := "Enterprise core platforms"
      success_metrics :=
        [("layer_coverage", "100%"), ("integration_score", ">90%"),
         ("functionality_preservation", "100%")] }
  else if sect == "2.0" then
    { focus := "14 Machines of Power"
      implementation :=
        ["Identify primary machines for business", "Implement machine-specific systems",
         "Create machine coordination", "Optimize machine performance"]
      memu_integration := "All enterprise systems"
      success_metrics :=
        [("machine_coverage", "100%"), ("coordination_score", ">90%"),
         ("performance_improvement", ">50%")] }
  else if sect == "3.0" then
    { focus := "82-Business Neural Mapping"
      implementation :=
        ["Map business to neural pathways", "Implement neural-specific systems",
         "Create pathway optimization", "Validate neural functionality"]
      memu_integration := "Business intelligence systems"
      success_metrics :=
        [("neural_coverage", "100%"), ("pathway_optimization", ">90%"),
         ("business_alignment", ">95%")] }
  else generate_generic_plan sect

/-- `_generate_technical_plan` (source lines 250-303): the `Volume_2` table
with sections `"4.0"`, `"5.0"`, `"6.0"`, defaulting to the generic plan. -/
def generate_technical_plan (sect : String) : ExecutionPlan :=
  if sect == "4.0" then
    { focus := "AI Agent Orchestration System"
      implementation :=
        ["Implement multi-agent architecture", "Set up MCP integration",
         "Create URL-based API architecture", "Build iOS app ecosystem",
         "Implement real-time monitoring"]
      memu_integration := "AI agent ecosystem, MCP hub, API management"
      success_metrics :=
        [("agent_coordination", ">95%"), ("api_performance", "<200ms"),
         ("monitoring_coverage", "100%")] }
  else if sect == "5.0" then
    { focus := "Data & Knowledge Architecture"
      implementation :=
        ["Set up unified data lakehouse", "Implement knowledge graph engine",
         "Create vector database integration", "Build ETL/ELT pipelines",
         "Implement real-time streaming"]
      memu_integration := "Database systems, intelligence systems"
      success_metrics :=
        [("data_coverage", "100%"), ("query_performance", "<100ms"),
         ("real_time_latency", "<50ms")] }
  else if sect == "6.0" then
    { focus := "Deployment & Infrastructure"
      implementation :=
        ["Set up Kubernetes orchestration", "Implement Terraform IaC",
         "Create CI/CD pipelines", "Build multi-cloud strategy",
         "Implement security framework"]
      memu_integration := "DevOps systems, security systems"
      success_metrics :=
        [("deployment_speed", "<5min"), ("uptime", ">99.9%"),
         ("security_score", ">95%")] }
  else generate_generic_plan sect

/-- `_generate_temporal_plan` (source lines 305-321). -/
def generate_temporal_plan : ExecutionPlan :=
  { focus := "Temporal Optimization"
    implementation :=
      ["Analyze temporal constraints", "Optimize timing for business",
       "Implement temporal algorithms", "Create temporal monitoring"]
    memu_integration := "Scheduling systems, temporal systems"
    success_metrics :=
      [("timing_accuracy", ">95%"), ("temporal_efficiency", ">90%"),
       ("success_probability", ">85%")] }

/-- `_generate_energetic_plan` (source lines 323-339). -/
def generate_energetic_plan : ExecutionPlan :=
  { focus := "Energy Flow Optimization"
    implementation :=
      ["Map energy flows", "Optimize energy circulation",
       "Implement energy monitoring", "Create energy management"]
    memu_integration := "Energy systems, flow systems"
    success_metrics :=
      [("energy_efficiency", ">90%"), ("flow_optimization", ">95%"),
       ("energy_utilization", ">85%")] }

/-- `_generate_consciousness_plan` (source lines 341-357). -/
def generate_consciousness_plan : ExecutionPlan :=
  { focus := "Consciousness Development"
    implementation :=
      ["Implement AI consciousness protocols", "Create multi-agent collective intelligence",
       "Build ethical governance frameworks", "Develop transcendent AI architectures"]
    memu_integration := "AI consciousness, transcendent systems"
    success_metrics :=
      [("consciousness_level", ">90%"), ("ethical_compliance", "100%"),
       ("transcendent_capability", ">85%")] }

/-- The second `_generate_execution_plan` definition of the class body (source
lines 359-375, docstring "Generate plan for execution playbooks").  It ignores
both of its parameters, so it is a constant.  Because a Python class body binds
methods sequentially, this later definition replaces the dispatching
`_generate_execution_plan` of lines 173-196 in the class namespace: the call
`self._generate_execution_plan(context, expected_outputs)` inside
`execute_task` resolves to this method and yields this fixed plan for every
task. -/
def generate_execution_plan_effective : ExecutionPlan :=
  { focus := "Execution Optimization"
    implementation :=
      ["Implement daily protocols", "Launch quick-win businesses",
       "Set up core infrastructure", "Develop neural pathways"]
    memu_integration := "All enterprise systems"
    success_metrics :=
      [("execution_speed", ">90%"), ("success_rate", ">85%"),
       ("infrastructure_coverage", "100%")] }

/-- `_generate_monitoring_plan` (source lines 377-393). -/
def generate_monitoring_plan : ExecutionPlan :=
  { focus := "Monitoring & Optimization"
    implementation :=
      ["Implement multi-dimensional metrics", "Create adaptive learning systems",
       "Build performance tracking", "Develop optimization algorithms"]
    memu_integration := "Monitoring systems, optimization systems"
    success_metrics :=
      [("monitoring_coverage", "100%"), ("optimization_efficiency", ">90%"),
       ("learning_rate", ">85%")] }

/-- The first `_generate_execution_plan` definition of the class body (source
lines 173-196): the Plan Catalog dispatch on `context.target_volume` and
`context.target_section`.  Dead code at runtime — the second definition of the
same name (lines 359-375, `generate_execution_plan_effective`) shadows it in
the class namespace before any call can reach it.  Its `Volume_6` branch calls
`self._generate_execution_plan(section, context)`, which at runtime is the
shadowing constant method, hence `generate_execution_plan_effective` there.
The unused `expected_outputs` parameter is dropped. -/
def generate_execution_plan_dispatch (context : AgentExecutionContext) :
    ExecutionPlan :=
  let volume := context.target_volume
  let sect := context.target_section
  if volume == "Volume_1" then generate_foundational_plan sect
  else if volume == "Volume_2" then generate_technical_plan sect
  else if volume == "Volume_3" then generate_temporal_plan
  else if volume == "Volume_4" then generate_energetic_plan
  else if volume == "Volume_5" then generate_consciousness_plan
  else if volume == "Volume_6" then generate_execution_plan_effective
  else if volume == "Volume_7" then generate_monitoring_plan
  else generate_generic_plan sect

/-! ## Impact estimators -/

/-- `_calculate_cross_dimensional_impact` (source lines 429-441). -/
def calculate_cross_dimensional_impact (context : AgentExecutionContext) : String :=
  let impact_score :=
    context.current_reality_layer.val * 10 + context.current_business_focus.length
  if impact_score > 50 then "High - Significant cross-dimensional optimization achieved"
  else if impact_score > 30 then "Medium - Moderate cross-dimensional impact"
  else "Low - Limited cross-dimensional impact"

/-- `_calculate_business_value` (source lines 443-454). -/
def calculate_business_value (context : AgentExecutionContext) : String :=
  let business_focus := pyLower context.current_business_focus
  if strContains business_focus "credit repair" then
    "$50K-100K monthly revenue potential"
  else if strContains business_focus "real estate" then
    "$100K-500K monthly revenue potential"
  else if strContains business_focus "ai automation" then
    "$25K-75K monthly revenue potential"
  else "$10K-50K monthly revenue potential"

/-- `_calculate_temporal_optimization` (source lines 456-465). -/
def calculate_temporal_optimization (context : AgentExecutionContext) : String :=
  let temporal_constraints := pyLower context.temporal_constraints
  if strContains temporal_constraints "30-day" then
    "High - Rapid implementation timeline"
  else if strContains temporal_constraints "90-day" then
    "Medium - Standard implementation timeline"
  else "Low - Extended implementation timeline"

/-- `_calculate_energy_efficiency` (source lines 467-476). -/
def calculate_energy_efficiency (context : AgentExecutionContext) : String :=
  let energy_resources := pyLower context.energy_resources
  if strContains energy_resources "high" then
    "High - Maximum energy utilization"
  else if strContains energy_resources "medium" then
    "Medium - Moderate energy utilization"
  else "Low - Minimal energy utilization"

/-- `_execute_plan` (source lines 413-427). -/
def execute_plan (plan : ExecutionPlan) (context : AgentExecutionContext) :
    ExecResults :=
  { plan_focus := plan.focus
    implementation_steps := plan.implementation
    memu_integration := plan.memu_integration
    success_metrics := plan.success_metrics
    execution_status := "Completed"
    cross_dimensional_impact := calculate_cross_dimensional_impact context
    business_value := calculate_business_value context
    temporal_optimization := calculate_temporal_optimization context
    energy_efficiency := calculate_energy_efficiency context }

/-- `execute_task` (source lines 143-171).  `if not agent_name` is Python
truthiness: it fires for `None` and for the empty string.  The task's status is
never checked.  The `self.agents[agent_name]` mutation is `dictUpdate`, a no-op
on an absent key (in every state the orchestrator itself produces the assigned
agent is registered, so the Python `KeyError` path is unreachable). -/
def execute_task (s : Orchestrator) (now : Nat) (task_id : String) :
    Except ExecError ExecResults × Orchestrator :=
  match s.execution_queue.find? (fun t => t.id == task_id) with
  | none => (Except.error ExecError.taskNotFound, s)
  | some task =>
    match task.assigned_agent with
    | none => (Except.error ExecError.noAgentAssigned, s)
    | some agent_name =>
      if agent_name == "" then (Except.error ExecError.noAgentAssigned, s)
      else
        let execution_plan := generate_execution_plan_effective
        let results := execute_plan execution_plan task.context
        (Except.ok results,
          { s with
            execution_queue := updateFirstTask s.execution_queue task_id
              (fun t => { t with status := "Completed",
                                 results := some results,
                                 completed_at := some now })
            agents := dictUpdate agent_name
              (fun a => { a with status := "Available", current_task := none })
              s.agents })

/-- `get_execution_status` (source lines 478-488). -/
structure StatusReport where
  total_agents : Nat
  available_agents : Nat
  busy_agents : Nat
  queued_tasks : Nat
  in_progress_tasks : Nat
  completed_tasks : Nat
  memu_integration_value : Nat
  deriving DecidableEq, Repr

def get_execution_status (s : Orchestrator) : StatusReport :=
  { total_agents := s.agents.length
    available_agents := (s.agents.filter (fun p => p.2.status == "Available")).length
    busy_agents := (s.agents.filter (fun p => p.2.status == "Busy")).length
    queued_tasks := (s.execution_queue.filter (fun t => t.status == "Queued")).length
    in_progress_tasks := (s.execution_queue.filter (fun t => t.status == "In Progress")).length
    completed_tasks := (s.execution_queue.filter (fun t => t.status == "Completed")).length
    memu_integration_value := (memu_integration.map (fun p => parse_billions p.2)).sum }

/-- The freshly constructed orchestrator (`__init__`, source lines 66-70). -/
def initial_orchestrator : Orchestrator :=
  { agents := [], execution_queue := [] }

/-! ## Reachable states

A state is reachable when it arises from the empty orchestrator by some
sequence of the four public mutating operations.  The clock index is the last
`datetime.now()` reading; the side conditions `clk ≤ now` model that the wall
clock never runs backwards between calls.  The second index counts enqueued
tasks. -/

inductive Reachable : Nat → Nat → Orchestrator → Prop where
  | init : Reachable 0 0 initial_orchestrator
  | register (clk n : Nat) (s : Orchestrator) (agent_name : String)
      (caps : List String) (rls : List RealityLayer) (pms : List PowerMachine) :
      Reachable clk n s →
      Reachable clk n (register_agent s agent_name caps rls pms)
  | enqueue (clk n now : Nat) (s : Orchestrator) (ctx : AgentExecutionContext)
      (out : AgentExecutionOutput) :
      Reachable clk n s → clk ≤ now →
      Reachable now (n + 1) (create_execution_task s now ctx out).2
  | assign (clk n : Nat) (s : Orchestrator) (tid aid : String) :
      Reachable clk n s →
      Reachable clk n (assign_agent_to_task s tid aid).2
  | exec (clk n now : Nat) (s : Orchestrator) (tid : String) :
      Reachable clk n s → clk ≤ now →
      Reachable now n (execute_task s now tid).2

/-! ## Helper lemmas about the dictionary and queue operations -/

theorem dictGet_dictInsert_self (k : String) (v : Agent) (d : List (String × Agent)) :
    dictGet k (dictInsert k v d) = some v := by
  unfold dictInsert
  by_cases h : dictContains k d = true
  · simp only [h, if_true]
    unfold dictContains at h
    simp only [List.any_eq_true, beq_iff_eq] at h
    obtain ⟨p, hp, hpk⟩ := h
    induction d with
    | nil => cases hp
    | cons q d ih =>
      unfold dictGet
      rcases List.mem_cons.mp hp with rfl | hp'
      · simp [hpk]
      · by_cases hq : q.1 = k
        · simp [hq]
        · simpa [dictGet, hq] using ih hp'
  · simp only [h, if_false]
    unfold dictContains at h
    simp only [List.any_eq_true, beq_iff_eq, not_exists, not_and] at h
    induction d with
    | nil => simp [dictGet]
    | cons q d ih =>
      have hq : ¬ q.1 = k := fun hh => h q (List.mem_cons_self q d) hh
      have ih' := ih (fun p hp => h p (List.mem_cons_of_mem q hp))
      simpa [dictGet, hq] using ih'

theorem mem_dictInsert {k : String} {v : Agent} {d : List (String × Agent)}
    {p : String × Agent} (hp : p ∈ dictInsert k v d) : p ∈ d ∨ p = (k, v) := by
  unfold dictInsert at hp
  by_cases h : dictContains k d = true
  · rw [if_pos h] at hp
    obtain ⟨q, hq, hqp⟩ := List.mem_map.mp hp
    by_cases hk : q.1 = k
    · right
      simp only [hk, beq_self_eq_true, if_true] at hqp
      exact hqp.symm
    · left
      have : ¬ (q.1 == k) = true := by simpa using hk
      rw [if_neg this] at hqp
      exact hqp ▸ hq
  · rw [if_neg h] at hp
    rcases List.mem_append.mp hp with h1 | h2
    · exact Or.inl h1
    · right
      simpa using h2

theorem dictGet_dictUpdate_self (k : String) (f : Agent → Agent)
    (d : List (String × Agent)) :
    dictGet k (dictUpdate k f d) = (dictGet k d).map f := by
  induction d with
  | nil => simp [dictGet, dictUpdate]
  | cons q d ih =>
    by_cases hq : q.1 = k
    · simp [dictGet, dictUpdate, hq]
    · simpa [dictGet, dictUpdate, hq] using ih

theorem mem_dictUpdate {k : String} {f : Agent → Agent} {d : List (String × Agent)}
    {p : String × Agent} (hp : p ∈ dictUpdate k f d) :
    p ∈ d ∨ ∃ q ∈ d, q.1 = k ∧ p = (q.1, f q.2) := by
  unfold dictUpdate at hp
  obtain ⟨q, hq, hqp⟩ := List.mem_map.mp hp
  by_cases h : q.1 = k
  · exact Or.inr ⟨q, hq, h, by simpa [h] using hqp.symm⟩
  · left
    have hneg : ¬ (q.1 == k) = true := by simpa using h
    rw [if_neg hneg] at hqp
    exact hqp ▸ hq

theorem updateFirstTask_eq_of_find?_none {q : List Task} {tid : String}
    {f : Task → Task} (h : q.find? (fun t => t.id == tid) = none) :
    updateFirstTask q tid f = q := by
  induction q with
  | nil => rfl
  | cons t ts ih =>
    by_cases ht : (t.id == tid) = true
    · simp only [List.find?, ht] at h
      exact absurd h (Option.some_ne_none t)
    · have ht' : (t.id == tid) = false := by simpa using ht
      simp only [List.find?, ht'] at h
      simp [updateFirstTask, ht', ih h]

theorem find?_updateFirstTask {q : List Task} {tid : String} {f : Task → Task}
    {t0 : Task} (h : q.find? (fun t => t.id == tid) = some t0)
    (hid : (f t0).id = t0.id) :
    (updateFirstTask q tid f).find? (fun t => t.id == tid) = some (f t0) := by
  induction q with
  | nil => cases h
  | cons t ts ih =>
    by_cases ht : (t.id == tid) = true
    · simp only [List.find?, ht] at h
      have ht0 : t = t0 := by
        injection h
      subst ht0
      have hft : ((f t).id == tid) = true := by
        rw [hid]; exact ht
      simp [updateFirstTask, ht, List.find?, hft]
    · have ht' : (t.id == tid) = false := by simpa using ht
      simp only [List.find?, ht'] at h
      simp [updateFirstTask, ht', List.find?, ih h]

theorem mem_updateFirstTask {q : List Task} {tid : String} {f : Task → Task}
    {x : Task} (hx : x ∈ updateFirstTask q tid f) :
    x ∈ q ∨ ∃ t ∈ q, (t.id == tid) = true ∧ x = f t := by
  induction q with
  | nil => cases hx
  | cons t ts ih =>
    by_cases ht : (t.id == tid) = true
    · simp only [updateFirstTask, ht, if_true] at hx
      rcases List.mem_cons.mp hx with rfl | hx'
      · exact Or.inr ⟨t, List.mem_cons_self t ts, ht, rfl⟩
      · exact Or.inl (List.mem_cons_of_mem t hx')
    · simp only [updateFirstTask, ht, if_false] at hx
      rcases List.mem_cons.mp hx with rfl | hx'
      · exact Or.inl (List.mem_cons_self x ts)
      · rcases ih hx' with h1 | ⟨u, hu, hutid, hxu⟩
        · exact Or.inl (List.mem_cons_of_mem t h1)
        · exact Or.inr ⟨u, List.mem_cons_of_mem t hu, hutid, hxu⟩

theorem length_updateFirstTask (q : List Task) (tid : String) (f : Task → Task) :
    (updateFirstTask q tid f).length = q.length := by
  induction q with
  | nil => rfl
  | cons t ts ih =>
    by_cases ht : (t.id == tid) = true
    · simp [updateFirstTask, ht]
    · simp [updateFirstTask, ht, ih]

/-- Partition of a list's length by two mutually exclusive Boolean predicates
that jointly cover it. -/
theorem length_filter_two {α : Type} (p q : α → Bool) (l : List α)
    (hcov : ∀ x ∈ l, p x = true ∨ q x = true)
    (hdis : ∀ x ∈ l, ¬(p x = true ∧ q x = true)) :
    (l.filter p).length + (l.filter q).length = l.length := by
  induction l with
  | nil => rfl
  | cons x xs ih =>
    have ih' := ih (fun y hy => hcov y (List.mem_cons_of_mem x hy))
      (fun y hy => hdis y (List.mem_cons_of_mem x hy))
    rcases hcov x (List.mem_cons_self x xs) with hp | hq
    · have hq' : q x = false := by
        rcases Bool.eq_false_or_eq_true (q x) with h | h
        · exact absurd ⟨hp, h⟩ (hdis x (List.mem_cons_self x xs))
        · exact h
      simp [List.filter_cons, hp, hq', ih']
      omega
    · have hp' : p x = false := by
        rcases Bool.eq_false_or_eq_true (p x) with h | h
        · exact absurd ⟨h, hq⟩ (hdis x (List.mem_cons_self x xs))
        · exact h
      simp [List.filter_cons, hp', hq, ih']
      omega

/-- Partition of a list's length by three mutually exclusive Boolean
predicates that jointly cover it. -/
theorem length_filter_three {α : Type} (p q r : α → Bool) (l : List α)
    (hcov : ∀ x ∈ l, p x = true ∨ q x = true ∨ r x = true)
    (hpq : ∀ x ∈ l, ¬(p x = true ∧ q x = true))
    (hpr : ∀ x ∈ l, ¬(p x = true ∧ r x = true))
    (hqr : ∀ x ∈ l, ¬(q x = true ∧ r x = true)) :
    (l.filter p).length + (l.filter q).length + (l.filter r).length = l.length := by
  induction l with
  | nil => rfl
  | cons x xs ih =>
    have ih' := ih (fun y hy => hcov y (List.mem_cons_of_mem x hy))
      (fun y hy => hpq y (List.mem_cons_of_mem x hy))
      (fun y hy => hpr y (List.mem_cons_of_mem x hy))
      (fun y hy => hqr y (List.mem_cons_of_mem x hy))
    have hx := List.mem_cons_self x xs
    rcases hcov x hx with hp | hq | hr
    · have hq' : q x = false := by
        rcases Bool.eq_false_or_eq_true (q x) with h | h
        · exact absurd ⟨hp, h⟩ (hpq x hx)
        · exact h
      have hr' : r x = false := by
        rcases Bool.eq_false_or_eq_true (r x) with h | h
        · exact absurd ⟨hp, h⟩ (hpr x hx)
        · exact h
      simp [List.filter_cons, hp, hq', hr']
      omega
    · have hp' : p x = false := by
        rcases Bool.eq_false_or_eq_true (p x) with h | h
        · exact absurd ⟨h, hq⟩ (hpq x hx)
        · exact h
      have hr' : r x = false := by
        rcases Bool.eq_false_or_eq_true (r x) with h | h
        · exact absurd ⟨hq, h⟩ (hqr x hx)
        · exact h
      simp [List.filter_cons, hp', hq, hr']
      omega
    · have hp' : p x = false := by
        rcases Bool.eq_false_or_eq_true (p x) with h | h
        · exact absurd ⟨h, hr⟩ (hpr x hx)
        · exact h
      have hq' : q x = false := by
        rcases Bool.eq_false_or_eq_true (q x) with h | h
        · exact absurd ⟨h, hr⟩ (hqr x hx)
        · exact h
      simp [List.filter_cons, hp', hq', hr]
      omega

/-! ## State invariants -/

/-- Every registered agent's status is one of the two literals the source ever
stores (`register_agent`: `"Available"`; `assign_agent_to_task`: `"Busy"`;
`execute_task`: `"Available"`). -/
def AgentStatusOk (a : Agent) : Prop :=
  a.status = "Available" ∨ a.status = "Busy"

/-- Every task's status is one of the three literals the source ever stores
(`create_execution_task`: `"Queued"`; `assign_agent_to_task`: `"In Progress"`;
`execute_task`: `"Completed"`). -/
def TaskStatusOk (t : Task) : Prop :=
  t.status = "Queued" ∨ t.status = "In Progress" ∨ t.status = "Completed"

/-- Timing/payload facts about a single task, relative to the last clock
reading `clk`: it was created no later than `clk`, a `"Completed"` task
carries a result and a completion stamp no earlier than its creation, and a
`"Queued"` task carries neither. -/
def TaskPayloadOk (clk : Nat) (t : Task) : Prop :=
  t.created_at ≤ clk ∧
  (t.status = "Completed" → t.results.isSome = true ∧
    ∃ ct, t.completed_at = some ct ∧ t.created_at ≤ ct) ∧
  (t.status = "Queued" → t.results = none ∧ t.completed_at = none)

/-- The inductive invariant of the orchestrator: agent statuses and task
statuses range over their literal sets, task payloads are consistent with
their status, and the queue holds exactly the tasks ever enqueued. -/
def Invariant (clk n : Nat) (s : Orchestrator) : Prop :=
  (∀ p ∈ s.agents, AgentStatusOk p.2) ∧
  (∀ t ∈ s.execution_queue, TaskStatusOk t ∧ TaskPayloadOk clk t) ∧
  s.execution_queue.length = n

theorem taskPayloadOk_mono {clk now : Nat} {t : Task}
    (h : TaskPayloadOk clk t) (hle : clk ≤ now) : TaskPayloadOk now t :=
  ⟨le_trans h.1 hle, h.2.1, h.2.2⟩

theorem invariant_mono {clk now n : Nat} {s : Orchestrator}
    (h : Invariant clk n s) (hle : clk ≤ now) : Invariant now n s :=
  ⟨h.1, fun t ht => ⟨(h.2.1 t ht).1, taskPayloadOk_mono (h.2.1 t ht).2 hle⟩, h.2.2⟩

/-- The inductive invariant holds in every reachable state. -/
theorem invariant_of_reachable {clk n : Nat} {s : Orchestrator}
    (h : Reachable clk n s) : Invariant clk n s := by
  induction h with
  | init =>
    exact ⟨fun p hp => absurd hp (List.not_mem_nil p),
      fun t ht => absurd ht (List.not_mem_nil t), rfl⟩
  | register clk n s agent_name caps rls pms hr ih =>
    unfold register_agent
    refine ⟨fun p hp => ?_, ih.2.1, ih.2.2⟩
    rcases mem_dictInsert hp with hmem | rfl
    · exact ih.1 p hmem
    · exact Or.inl rfl
  | enqueue clk n now s ctx out hr hle ih =>
    unfold create_execution_task
    refine ⟨ih.1, fun t ht => ?_, by simpa using ih.2.2⟩
    rcases List.mem_append.mp ht with hmem | hnew
    · exact ⟨(ih.2.1 t hmem).1, taskPayloadOk_mono (ih.2.1 t hmem).2 hle⟩
    · have ht' : t = _ := List.mem_singleton.mp hnew
      subst ht'
      refine ⟨Or.inl rfl, le_refl now, ?_, ?_⟩
      · intro hcon
        have hcon' : ("Queued" : String) = "Completed" := hcon
        exact absurd hcon' (by decide)
      · intro _
        exact ⟨rfl, rfl⟩
  | assign clk n s tid aid hr ih =>
    unfold assign_agent_to_task
    cases hga : dictGet aid s.agents with
    | none => simpa [hga] using ih
    | some agent =>
      cases hft : s.execution_queue.find? (fun t => t.id == tid) with
      | none => simpa [hga, hft] using ih
      | some t0 =>
        by_cases hav : (agent.status == "Available") = true
        · simp only [hga, hft, hav, if_true]
          refine ⟨fun p hp => ?_, fun t ht => ?_, ?_⟩
          · dsimp only at hp
            rcases mem_dictUpdate hp with hmem | ⟨q, hq, _, rfl⟩
            · exact ih.1 p hmem
            · exact Or.inr rfl
          · dsimp only at ht
            rcases mem_updateFirstTask ht with hmem | ⟨u, hu, _, rfl⟩
            · exact ih.2.1 t hmem
            · refine ⟨Or.inr (Or.inl rfl), (ih.2.1 u hu).2.1, ?_, ?_⟩
              · intro hcon
                have hcon' : ("In Progress" : String) = "Completed" := hcon
                exact absurd hcon' (by decide)
              · intro hcon
                have hcon' : ("In Progress" : String) = "Queued" := hcon
                exact absurd hcon' (by decide)
          · simpa [length_updateFirstTask] using ih.2.2
        · simpa [hga, hft, hav] using ih
  | exec clk n now s tid hr hle ih =>
    unfold execute_task
    cases hft : s.execution_queue.find? (fun t => t.id == tid) with
    | none => simpa [hft] using invariant_mono ih hle
    | some task =>
      cases hag : task.assigned_agent with
      | none => simpa [hft, hag] using invariant_mono ih hle
      | some agent_name =>
        by_cases hempty : (agent_name == "") = true
        · simpa [hft, hag, hempty] using invariant_mono ih hle
        · have hempty' : (agent_name == "") = false := by simpa using hempty
          simp only [hft, hag, hempty', Bool.false_eq_true, if_false]
          refine ⟨fun p hp => ?_, fun t ht => ?_, ?_⟩
          · dsimp only at hp
            rcases mem_dictUpdate hp with hmem | ⟨q, hq, _, rfl⟩
            · exact ih.1 p hmem
            · exact Or.inl rfl
          · dsimp only at ht
            rcases mem_updateFirstTask ht with hmem | ⟨u, hu, _, rfl⟩
            · exact ⟨(ih.2.1 t hmem).1, taskPayloadOk_mono (ih.2.1 t hmem).2 hle⟩
            · have hu' := (ih.2.1 u hu).2.1
              refine ⟨Or.inr (Or.inr rfl), le_trans hu' hle, ?_, ?_⟩
              · intro _
                exact ⟨rfl, now, rfl, le_trans hu' hle⟩
              · intro hcon
                have hcon' : ("Completed" : String) = "Queued" := hcon
                exact absurd hcon' (by decide)
          · simpa [length_updateFirstTask] using ih.2.2

/-! ## Concrete sample inputs and a sample run

These mirror the demonstration values of the source's `main()` (volume and
section chosen to hit the `Volume_1` catalog table). -/

def sampleContext : AgentExecutionContext :=
  { target_volume := "Volume_1"
    target_section := "1.0"
    current_business_focus := "Credit Repair Service"
    current_reality_layer := RealityLayer.MENTAL
    temporal_constraints := "30-day implementation"
    energy_resources := "High technical resources available" }

def sampleOutput : AgentExecutionOutput :=
  { technical_specifications := "Complete API specification with monitoring endpoints"
    implementation_steps :=
      ["Design API endpoints", "Implement authentication",
       "Create monitoring", "Deploy and test"]
    success_metrics :=
      [("api_performance", "<200ms"), ("uptime", ">99.9%"),
       ("security_score", ">95%")]
    cross_dimensional_impact := "High - Significant cross-dimensional optimization achieved" }

/-- Register one agent, enqueue one task at clock reading 5, assign, execute
at clock reading 9. -/
def sState1 : Orchestrator :=
  register_agent initial_orchestrator "A1" ["build"]
    [RealityLayer.MENTAL] [PowerMachine.DATA]

def sEnq : String × Orchestrator :=
  create_execution_task sState1 5 sampleContext sampleOutput

def sAssign : Bool × Orchestrator :=
  assign_agent_to_task sEnq.2 sEnq.1 "A1"

def sExec : Except ExecError ExecResults × Orchestrator :=
  execute_task sAssign.2 9 sEnq.1

/-! ## C1 — plan resolution on execute -/

/-- C1: the claim says the plan embedded in an execution result is resolved
from the Plan Catalog keyed on the task's `(category, subcategory)` pair.  It
is not: the class body binds `_generate_execution_plan` twice, the second
(constant) definition shadows the catalog dispatcher, so `execute_task` gives
every task the fixed "Execution Optimization" playbook plan.  Here a
`Volume_1` / section `1.0` task — whose catalog entry is the
"7-Layer Reality Architecture" plan — executes to the playbook plan instead. -/
theorem plan_catalog_bypassed_on_execute :
    (∃ r, sExec.1 = Except.ok r ∧ r.plan_focus = "Execution Optimization") ∧
    sampleContext.target_volume = "Volume_1" ∧
    sampleContext.target_section = "1.0" ∧
    (generate_foundational_plan "1.0").focus = "7-Layer Reality Architecture" ∧
    (generate_execution_plan_dispatch sampleContext).focus
      = "7-Layer Reality Architecture" ∧
    generate_execution_plan_effective.focus
      ≠ (generate_execution_plan_dispatch sampleContext).focus := by
  refine ⟨⟨execute_plan generate_execution_plan_effective sampleContext,
    rfl, rfl⟩, rfl, rfl, by decide, by decide, by decide⟩

/-! ## C2 — task identifier uniqueness -/

/-- Cancellation of a common prefix of a string concatenation. -/
theorem string_append_left_cancel {t a b : String} (h : t ++ a = t ++ b) :
    a = b := by
  have hd : (t ++ a).data = (t ++ b).data := congrArg String.data h
  rw [String.data_append, String.data_append] at hd
  have hab := List.append_cancel_left hd
  cases a
  cases b
  exact congrArg String.mk hab

/-- C2 counterexample: two `create_execution_task` calls within the same
second (the same clock reading, hence the same `%Y%m%d_%H%M%S` rendering)
return the same identifier — identifiers are not pairwise distinct for
same-instant calls. -/
theorem task_id_collision_same_instant :
    (create_execution_task initial_orchestrator 5 sampleContext sampleOutput).1
      = (create_execution_task
          (create_execution_task initial_orchestrator 5 sampleContext sampleOutput).2
          5 sampleContext sampleOutput).1 := rfl

/-- C2 amended: two task identifiers coincide exactly when the two calls'
formatted clock readings coincide; identifiers from calls whose clock readings
format differently (in particular, calls in different seconds) are distinct,
while two calls within the same second collide. -/
theorem task_id_distinct_iff_clock_readings_differ
    (s1 s2 : Orchestrator) (n1 n2 : Nat) (c1 c2 : AgentExecutionContext)
    (o1 o2 : AgentExecutionOutput) :
    (create_execution_task s1 n1 c1 o1).1 = (create_execution_task s2 n2 c2 o2).1
      ↔ strftime_YmdHMS n1 = strftime_YmdHMS n2 := by
  constructor
  · intro h
    exact string_append_left_cancel h
  · intro h
    show "task_" ++ strftime_YmdHMS n1 = "task_" ++ strftime_YmdHMS n2
    rw [h]

/-! ## C3 — assignment exclusivity -/

/-- Two registered agents and one enqueued task, with the task assigned to
`"A1"`. -/
def twoAgentState : Orchestrator :=
  register_agent
    (register_agent initial_orchestrator "A1" ["build"] [] [])
    "A2" ["test"] [] []

def twoEnq : String × Orchestrator :=
  create_execution_task twoAgentState 5 sampleContext sampleOutput

def firstAssign : Bool × Orchestrator :=
  assign_agent_to_task twoEnq.2 twoEnq.1 "A1"

/-- C3 counterexample: after `assign(t, "A1")` succeeds, `assign(t, "A2")`
also succeeds — `assign_agent_to_task` never inspects the task's status, so an
`"In Progress"` task is happily handed to a second available agent, unlike the
claim's demand that every later `assign(t, a2)` fail. -/
theorem double_assignment_accepted :
    firstAssign.1 = true
      ∧ (assign_agent_to_task firstAssign.2 twoEnq.1 "A2").1 = true := by
  exact ⟨rfl, rfl⟩

/-- C3 amended: after `assign(t, a)` succeeds, every `assign(t2, a)` for any
task `t2` — including `t` itself — returns false until `execute(t)` releases
`a`, because `a` is `"Busy"`; but assignment of `t` to a *different* available
agent is not blocked (the code checks only the agent's availability, never the
task's state). -/
theorem busy_agent_rejects_assignment (s s' : Orchestrator) (tid aid : String)
    (h : assign_agent_to_task s tid aid = (true, s')) (t2 : String) :
    (assign_agent_to_task s' t2 aid).1 = false := by
  unfold assign_agent_to_task at h
  cases hga : dictGet aid s.agents with
  | none =>
    simp only [hga] at h
    simp at h
  | some agent =>
    simp only [hga] at h
    cases hft : s.execution_queue.find? (fun t => t.id == tid) with
    | none =>
      simp only [hft] at h
      simp at h
    | some t0 =>
      simp only [hft] at h
      by_cases hav : (agent.status == "Available") = true
      · rw [if_pos hav] at h
        injection h with h1 h2
        subst h2
        have hget : dictGet aid
            (dictUpdate aid
              (fun a => { a with status := "Busy", current_task := some tid })
              s.agents)
            = some { agent with status := "Busy", current_task := some tid } := by
          rw [dictGet_dictUpdate_self, hga]
          rfl
        unfold assign_agent_to_task
        dsimp only
        simp only [hget]
        split
        · rfl
        · rfl
      · rw [if_neg hav] at h
        simp at h

/-- C3 amended, witness: with the task assigned to `"A1"`, assigning any other
task to the busy `"A1"` fails. -/
theorem busy_agent_rejects_assignment_witness :
    (assign_agent_to_task firstAssign.2 "some-other-task" "A1").1 = false :=
  busy_agent_rejects_assignment twoEnq.2 firstAssign.2 twoEnq.1 "A1" rfl
    "some-other-task"

/-! ## C4 — at most one terminal transition -/

def secondAssign : Bool × Orchestrator :=
  assign_agent_to_task sExec.2 sEnq.1 "A1"

def secondExec : Except ExecError ExecResults × Orchestrator :=
  execute_task secondAssign.2 30 sEnq.1

/-- C4: the claim says a `"Completed"` task undergoes no further transitions
and its agent is released exactly once.  The code never checks a task's status
in `assign_agent_to_task` or `execute_task`, so a completed task can be
re-assigned (dropping back to `"In Progress"`), re-executed (a second terminal
transition), and its completion timestamp and assigned agent overwritten. -/
theorem completed_task_retransitions :
    sExec.2.execution_queue.map Task.status = ["Completed"] ∧
    sExec.2.execution_queue.map Task.completed_at = [some 9] ∧
    secondAssign.1 = true ∧
    secondAssign.2.execution_queue.map Task.status = ["In Progress"] ∧
    (∃ r, secondExec.1 = Except.ok r) ∧
    secondExec.2.execution_queue.map Task.status = ["Completed"] ∧
    secondExec.2.execution_queue.map Task.completed_at = [some 30] := by
  exact ⟨rfl, rfl, rfl, rfl, ⟨_, rfl⟩, rfl, rfl⟩

/-! ## C5 — assignment success condition and effects -/

/-- The same orchestrator with every registered agent's capability list
replaced; used to state that assignment never consults capabilities. -/
def withCapabilities (caps : String → List String) (s : Orchestrator) :
    Orchestrator :=
  { s with agents := s.agents.map (fun p => (p.1, { p.2 with capabilities := caps p.1 })) }

theorem dictGet_map_capabilities (caps : String → List String)
    (d : List (String × Agent)) (k : String) :
    dictGet k (d.map (fun p => (p.1, { p.2 with capabilities := caps p.1 })))
      = (dictGet k d).map (fun a => { a with capabilities := caps k }) := by
  induction d with
  | nil => rfl
  | cons q d ih =>
    by_cases h : (q.1 == k) = true
    · have hqk : q.1 = k := by simpa using h
      simp [dictGet, List.find?, h, hqk]
    · have h' : (q.1 == k) = false := by simpa using h
      simp only [dictGet, List.map_cons, List.find?, h'] at ih ⊢
      exact ih

/-- `assign_agent_to_task` never consults capability tags: replacing every
agent's capability list leaves the returned Boolean unchanged. -/
theorem assign_ignores_capabilities (s : Orchestrator) (tid aid : String)
    (caps : String → List String) :
    (assign_agent_to_task (withCapabilities caps s) tid aid).1
      = (assign_agent_to_task s tid aid).1 := by
  have hmap := dictGet_map_capabilities caps s.agents aid
  unfold assign_agent_to_task withCapabilities
  dsimp only
  rw [hmap]
  cases hga : dictGet aid s.agents with
  | none => rfl
  | some a =>
    simp only [Option.map_some']
    cases hft : s.execution_queue.find? (fun t => t.id == tid) with
    | none => rfl
    | some t0 =>
      by_cases hs : (a.status == "Available") = true
      · rw [if_pos hs, if_pos hs]
      · rw [if_neg hs, if_neg hs]

/-- C5: `assign_agent_to_task` returns true exactly when the task is present,
the agent is registered and the agent's status is `"Available"` (capability
tags play no part); on failure the state is returned unchanged; on success the
agent becomes `"Busy"` with `current_task = task_id` and otherwise unchanged
fields, and the task gains `assigned_agent` and moves to `"In Progress"`;
finally, replacing every agent's capability tags never changes the Boolean
outcome. -/
theorem assign_agent_to_task_spec (s : Orchestrator) (tid aid : String) :
    ((assign_agent_to_task s tid aid).1 = true ↔
      ((s.execution_queue.find? (fun t => t.id == tid)).isSome = true ∧
        ∃ a, dictGet aid s.agents = some a ∧ a.status = "Available")) ∧
    ((assign_agent_to_task s tid aid).1 = false →
      (assign_agent_to_task s tid aid).2 = s) ∧
    ((assign_agent_to_task s tid aid).1 = true →
      dictGet aid (assign_agent_to_task s tid aid).2.agents
        = (dictGet aid s.agents).map
            (fun a => { a with status := "Busy", current_task := some tid }) ∧
      (assign_agent_to_task s tid aid).2.execution_queue.find?
          (fun t => t.id == tid)
        = (s.execution_queue.find? (fun t => t.id == tid)).map
            (fun t => { t with assigned_agent := some aid,
                               status := "In Progress" })) ∧
    (∀ caps, (assign_agent_to_task (withCapabilities caps s) tid aid).1
        = (assign_agent_to_task s tid aid).1) := by
  refine ⟨?_, ?_, ?_, fun caps => assign_ignores_capabilities s tid aid caps⟩
  · unfold assign_agent_to_task
    cases hga : dictGet aid s.agents with
    | none =>
      dsimp only
      constructor
      · intro hcon
        cases hcon
      · rintro ⟨-, a, ha, -⟩
        cases ha
    | some a =>
      cases hft : s.execution_queue.find? (fun t => t.id == tid) with
      | none =>
        dsimp only
        constructor
        · intro hcon
          cases hcon
        · rintro ⟨hsome, -⟩
          simp at hsome
      | some t0 =>
        dsimp only
        by_cases hs : (a.status == "Available") = true
        · rw [if_pos hs]
          constructor
          · intro _
            exact ⟨rfl, a, rfl, by simpa using hs⟩
          · intro _
            rfl
        · rw [if_neg hs]
          constructor
          · intro hcon
            cases hcon
          · rintro ⟨-, a', ha', hav'⟩
            have haa : a' = a := by
              injection ha' with h
              exact h.symm
            subst haa
            exact absurd (by simpa using hav' : (a'.status == "Available") = true) hs
  · unfold assign_agent_to_task
    cases hga : dictGet aid s.agents with
    | none => intro _; rfl
    | some a =>
      cases hft : s.execution_queue.find? (fun t => t.id == tid) with
      | none => intro _; rfl
      | some t0 =>
        dsimp only
        by_cases hs : (a.status == "Available") = true
        · rw [if_pos hs]
          intro hcon
          cases hcon
        · rw [if_neg hs]
          intro _
          rfl
  · unfold assign_agent_to_task
    cases hga : dictGet aid s.agents with
    | none =>
      intro hcon
      cases hcon
    | some a =>
      cases hft : s.execution_queue.find? (fun t => t.id == tid) with
      | none =>
        intro hcon
        cases hcon
      | some t0 =>
        dsimp only
        by_cases hs : (a.status == "Available") = true
        · rw [if_pos hs]
          intro _
          constructor
          · dsimp only
            rw [dictGet_dictUpdate_self, hga]
          · dsimp only
            rw [find?_updateFirstTask hft rfl]
            rfl
        · rw [if_neg hs]
          intro hcon
          cases hcon

/-! ## C6 — execute error results -/

/-- C6: `execute_task` returns the `"Task not found"` error value when no task
carries the identifier, and the `"No agent assigned"` error value when the
found task's `assigned_agent` is null; both are ordinary return values (the
embedding is a total function — nothing is raised) and in both cases the state
comes back unchanged. -/
theorem execute_task_error_spec (s : Orchestrator) (now : Nat) (tid : String) :
    (s.execution_queue.find? (fun t => t.id == tid) = none →
      execute_task s now tid = (Except.error ExecError.taskNotFound, s)) ∧
    (∀ t0, s.execution_queue.find? (fun t => t.id == tid) = some t0 →
      t0.assigned_agent = none →
      execute_task s now tid = (Except.error ExecError.noAgentAssigned, s)) := by
  constructor
  · intro h
    unfold execute_task
    simp only [h]
  · intro t0 h hag
    unfold execute_task
    simp only [h, hag]

/-! ## C7 — completion invariant -/

/-- The sample run (register, enqueue at clock 5, assign, execute at clock 9)
is reachable, with one task ever enqueued. -/
theorem reachable_sample : Reachable 9 1 sExec.2 := by
  have h1 := Reachable.register 0 0 initial_orchestrator "A1" ["build"]
    [RealityLayer.MENTAL] [PowerMachine.DATA] Reachable.init
  have h2 := Reachable.enqueue 0 0 5 sState1 sampleContext sampleOutput h1
    (by omega)
  have h3 := Reachable.assign 5 1 sEnq.2 sEnq.1 "A1" h2
  have h4 := Reachable.exec 5 1 9 sAssign.2 sEnq.1 h3 (by omega)
  exact h4

/-- C7: in every reachable state, every `"Completed"` task carries a result
and a completion timestamp no earlier than its creation timestamp, and every
`"Queued"` task carries neither.  The model is sequential, so each
`execute_task` is atomic per task and no partial state (a completed task with
a null result) is ever observable. -/
theorem completed_and_queued_task_invariant (clk n : Nat) (s : Orchestrator)
    (h : Reachable clk n s) :
    ∀ t ∈ s.execution_queue,
      (t.status = "Completed" → t.results.isSome = true ∧
        ∃ ct, t.completed_at = some ct ∧ t.created_at ≤ ct) ∧
      (t.status = "Queued" → t.results = none ∧ t.completed_at = none) := by
  intro t ht
  have hinv := invariant_of_reachable h
  exact ⟨(hinv.2.1 t ht).2.2.1, (hinv.2.1 t ht).2.2.2⟩

/-- C7 witness: the completion invariant evaluated on the completed task of
the sample run. -/
theorem completed_and_queued_task_invariant_witness :
    ∃ t ∈ sExec.2.execution_queue,
      (t.status = "Completed" → t.results.isSome = true ∧
        ∃ ct, t.completed_at = some ct ∧ t.created_at ≤ ct) ∧
      (t.status = "Queued" → t.results = none ∧ t.completed_at = none) := by
  have hne : sExec.2.execution_queue ≠ [] := by decide
  exact ⟨sExec.2.execution_queue.getLast hne, List.getLast_mem hne,
    completed_and_queued_task_invariant 9 1 sExec.2 reachable_sample _
      (List.getLast_mem hne)⟩

/-! ## C8 — round-trip availability -/

/-- The agent record `register_agent` stores. -/
def registeredAgent (caps : List String) (rls : List RealityLayer)
    (pms : List PowerMachine) : Agent :=
  { capabilities := caps
    reality_layers := rls
    power_machines := pms
    status := "Available"
    current_task := none }

/-- The task record `create_execution_task` appends for clock reading `now`
and payload `ctx`, `out`. -/
def enqueuedTask (now : Nat) (ctx : AgentExecutionContext)
    (out : AgentExecutionOutput) : Task :=
  { id := "task_" ++ strftime_YmdHMS now
    context := ctx
    expected_outputs := out
    status := "Queued"
    created_at := now
    assigned_agent := none
    progress := 0
    results := none
    completed_at := none }

/-- C8: starting anywhere, register agent `A`, enqueue a task, assign it to
`A` and execute it: the assignment reports success, the execution returns an
ordinary result, and `A` ends `"Available"` with `current_task = none` — the
same availability state registration gave it.  The only proviso is a non-empty
agent name (Python's `if not agent_name` truthiness treats `""` like `None`). -/
theorem register_assign_execute_roundtrip
    (s0 : Orchestrator) (A : String) (caps : List String)
    (rls : List RealityLayer) (pms : List PowerMachine)
    (ctx : AgentExecutionContext) (out : AgentExecutionOutput) (n1 n2 : Nat)
    (hA : A ≠ "")
    (tid : String) (s2 : Orchestrator)
    (henq : create_execution_task (register_agent s0 A caps rls pms) n1 ctx out
      = (tid, s2))
    (b : Bool) (s3 : Orchestrator)
    (hasg : assign_agent_to_task s2 tid A = (b, s3))
    (res : Except ExecError ExecResults) (s4 : Orchestrator)
    (hexe : execute_task s3 n2 tid = (res, s4)) :
    b = true ∧ (∃ r, res = Except.ok r) ∧
      dictGet A s4.agents = some (registeredAgent caps rls pms) := by
  injection henq with htid hs2
  subst htid
  subst hs2
  have hasg' : assign_agent_to_task
      (create_execution_task (register_agent s0 A caps rls pms) n1 ctx out).2
      ("task_" ++ strftime_YmdHMS n1) A = (b, s3) := hasg
  have hreg : dictGet A
      (create_execution_task (register_agent s0 A caps rls pms) n1 ctx out).2.agents
      = some (registeredAgent caps rls pms) :=
    dictGet_dictInsert_self A _ s0.agents
  have hqeq :
      (create_execution_task (register_agent s0 A caps rls pms) n1 ctx out).2.execution_queue
      = (register_agent s0 A caps rls pms).execution_queue
        ++ [enqueuedTask n1 ctx out] := rfl
  unfold assign_agent_to_task at hasg'
  rw [hreg, hqeq] at hasg'
  cases hfq : ((register_agent s0 A caps rls pms).execution_queue
      ++ [enqueuedTask n1 ctx out]).find?
        (fun t => t.id == "task_" ++ strftime_YmdHMS n1) with
  | none =>
    exfalso
    rw [List.find?_eq_none] at hfq
    have hmem := hfq (enqueuedTask n1 ctx out)
      (List.mem_append.mpr (Or.inr (List.mem_singleton.mpr rfl)))
    simp [enqueuedTask] at hmem
  | some t0 =>
    rw [hfq] at hasg'
    simp only [registeredAgent, beq_self_eq_true, if_true] at hasg'
    injection hasg' with hb hs3
    subst hb
    subst hs3
    refine ⟨rfl, ?_⟩
    unfold execute_task at hexe
    dsimp only at hexe
    rw [find?_updateFirstTask hfq rfl] at hexe
    dsimp only at hexe
    have hAne : ¬ (A == "") = true := by simpa using hA
    rw [if_neg hAne] at hexe
    injection hexe with hres hs4
    subst hs4
    refine ⟨⟨_, hres.symm⟩, ?_⟩
    dsimp only
    rw [dictGet_dictUpdate_self, dictGet_dictUpdate_self, hreg]
    rfl

/-- C8 witness: the round trip on the sample run. -/
theorem register_assign_execute_roundtrip_witness :
    sAssign.1 = true ∧ (∃ r, sExec.1 = Except.ok r) ∧
      dictGet "A1" sExec.2.agents
        = some (registeredAgent ["build"] [RealityLayer.MENTAL] [PowerMachine.DATA]) := by
  exact register_assign_execute_roundtrip initial_orchestrator "A1" ["build"]
    [RealityLayer.MENTAL] [PowerMachine.DATA] sampleContext sampleOutput 5 9
    (by decide) sEnq.1 sEnq.2 rfl sAssign.1 sAssign.2 rfl sExec.1 sExec.2 rfl

/-! ## C9 — estimator determinism and totality -/

/-- Modelled from the spec: "each returning a coarse three-tier qualitative
label (`High`/`Medium`/`Low`) with a short justification string" — a string
belongs to the three-tier set when it carries one of the three tier names as
its leading label. -/
def isThreeTierLabel (out : String) : Bool :=
  ["High", "Medium", "Low"].any (fun tier => tier.data.isPrefixOf out.data)

/-- A context whose free-text fields match none of the estimators' keywords. -/
def plainContext : AgentExecutionContext :=
  { target_volume := "V"
    target_section := "s"
    current_business_focus := "Widget shop"
    current_reality_layer := RealityLayer.PHYSICAL
    temporal_constraints := "whenever"
    energy_resources := "none at all" }

/-- C9 counterexample: on an input matching no keyword the business-value
estimator returns its default `"$10K-50K monthly revenue potential"`, a dollar
bracket that is not drawn from the three-tier `High`/`Medium`/`Low` set the
claim names (that estimator's output set has four members, none of them a tier
label). -/
theorem business_value_default_not_three_tier :
    calculate_business_value plainContext = "$10K-50K monthly revenue potential"
      ∧ isThreeTierLabel (calculate_business_value plainContext) = false := by
  exact ⟨by decide, by decide⟩

/-- C9 amended: each of the four estimators is deterministic (equal contexts
give equal outputs) and total, with outputs confined to a fixed finite set:
three tier-labelled strings for cross-dimensional impact, temporal
optimization and energy efficiency, and four dollar-bracket strings (not tier
labels) for business value, the last of each set being the default for
unmatched inputs. -/
theorem estimators_deterministic_and_total (c c' : AgentExecutionContext) :
    (c = c' →
      calculate_cross_dimensional_impact c = calculate_cross_dimensional_impact c' ∧
      calculate_business_value c = calculate_business_value c' ∧
      calculate_temporal_optimization c = calculate_temporal_optimization c' ∧
      calculate_energy_efficiency c = calculate_energy_efficiency c') ∧
    (calculate_cross_dimensional_impact c
        = "High - Significant cross-dimensional optimization achieved" ∨
      calculate_cross_dimensional_impact c
        = "Medium - Moderate cross-dimensional impact" ∨
      calculate_cross_dimensional_impact c
        = "Low - Limited cross-dimensional impact") ∧
    (calculate_business_value c = "$50K-100K monthly revenue potential" ∨
      calculate_business_value c = "$100K-500K monthly revenue potential" ∨
      calculate_business_value c = "$25K-75K monthly revenue potential" ∨
      calculate_business_value c = "$10K-50K monthly revenue potential") ∧
    (calculate_temporal_optimization c = "High - Rapid implementation timeline" ∨
      calculate_temporal_optimization c = "Medium - Standard implementation timeline" ∨
      calculate_temporal_optimization c = "Low - Extended implementation timeline") ∧
    (calculate_energy_efficiency c = "High - Maximum energy utilization" ∨
      calculate_energy_efficiency c = "Medium - Moderate energy utilization" ∨
      calculate_energy_efficiency c = "Low - Minimal energy utilization") := by
  refine ⟨?_, ?_, ?_, ?_, ?_⟩
  · intro h
    subst h
    exact ⟨rfl, rfl, rfl, rfl⟩
  · unfold calculate_cross_dimensional_impact
    dsimp only
    split_ifs <;> simp
  · unfold calculate_business_value
    dsimp only
    split_ifs <;> simp
  · unfold calculate_temporal_optimization
    dsimp only
    split_ifs <;> simp
  · unfold calculate_energy_efficiency
    dsimp only
    split_ifs <;> simp

/-! ## C10 — status taxonomy and snapshot counting -/

/-- C10: in every reachable state each agent's status is exactly
`"Available"` or `"Busy"` and each task's status is exactly `"Queued"`,
`"In Progress"` or `"Completed"`; consequently the status snapshot satisfies
`total_agents = available_agents + busy_agents`, and the three task counters
sum to the number of tasks ever enqueued (tasks are only ever appended,
never removed). -/
theorem status_snapshot_partition (clk n : Nat) (s : Orchestrator)
    (h : Reachable clk n s) :
    (∀ p ∈ s.agents, p.2.status = "Available" ∨ p.2.status = "Busy") ∧
    (∀ t ∈ s.execution_queue,
      t.status = "Queued" ∨ t.status = "In Progress" ∨ t.status = "Completed") ∧
    (get_execution_status s).total_agents
      = (get_execution_status s).available_agents
        + (get_execution_status s).busy_agents ∧
    (get_execution_status s).queued_tasks
      + (get_execution_status s).in_progress_tasks
      + (get_execution_status s).completed_tasks = n := by
  have hinv := invariant_of_reachable h
  refine ⟨hinv.1, fun t ht => (hinv.2.1 t ht).1, ?_, ?_⟩
  · have hpart := length_filter_two
      (fun p : String × Agent => p.2.status == "Available")
      (fun p : String × Agent => p.2.status == "Busy") s.agents
      (fun p hp => by
        rcases hinv.1 p hp with h1 | h1
        · exact Or.inl (by simpa using h1)
        · exact Or.inr (by simpa using h1))
      (fun p hp hboth => by
        have h1 : p.2.status = "Available" := by simpa using hboth.1
        have h2 : p.2.status = "Busy" := by simpa using hboth.2
        rw [h1] at h2
        exact absurd h2 (by decide))
    unfold get_execution_status
    exact hpart.symm
  · have hpart := length_filter_three
      (fun t : Task => t.status == "Queued")
      (fun t : Task => t.status == "In Progress")
      (fun t : Task => t.status == "Completed") s.execution_queue
      (fun t ht => by
        rcases (hinv.2.1 t ht).1 with h1 | h1 | h1
        · exact Or.inl (by simpa using h1)
        · exact Or.inr (Or.inl (by simpa using h1))
        · exact Or.inr (Or.inr (by simpa using h1)))
      (fun t ht hboth => by
        have h1 : t.status = "Queued" := by simpa using hboth.1
        have h2 : t.status = "In Progress" := by simpa using hboth.2
        rw [h1] at h2
        exact absurd h2 (by decide))
      (fun t ht hboth => by
        have h1 : t.status = "Queued" := by simpa using hboth.1
        have h2 : t.status = "Completed" := by simpa using hboth.2
        rw [h1] at h2
        exact absurd h2 (by decide))
      (fun t ht hboth => by
        have h1 : t.status = "In Progress" := by simpa using hboth.1
        have h2 : t.status = "Completed" := by simpa using hboth.2
        rw [h1] at h2
        exact absurd h2 (by decide))
    unfold get_execution_status
    rw [hpart]
    exact hinv.2.2

/-- C10 witness: the snapshot equations on the sample run's final state. -/
theorem status_snapshot_partition_witness :
    (get_execution_status sExec.2).total_agents
      = (get_execution_status sExec.2).available_agents
        + (get_execution_status sExec.2).busy_agents ∧
    (get_execution_status sExec.2).queued_tasks
      + (get_execution_status sExec.2).in_progress_tasks
      + (get_execution_status sExec.2).completed_tasks = 1 := by
  have h := status_snapshot_partition 9 1 sExec.2 reachable_sample
  exact ⟨h.2.2.1, h.2.2.2⟩

end AIAgentOrchestrator
